import Mathlib

/-!
Verification of the sora-image-generator scripts.

The Python sources (`sora_utils.py`, `stealth_launcher.py`,
`generate_image_from_prompt.py`) are shallowly embedded below: pure helper
functions become Lean functions, the browser/page is modelled as explicit
observation data, and side effects (sleeping, clicking, adding cookies,
writing files, signals) become explicit event traces or state records.
-/

namespace Sora

/-! ## Retry wrapper (`sora_utils.with_retry`)

The decorated wrapper repeatedly calls the wrapped function `f`.  We model
`f` as a function from the call index (0-based) to `Except ε α`: `.ok a`
means the call returned `a`, `.error e` means it raised exception `e`.
The wrapper's observable behaviour is a trace of events (calls and sleeps)
together with a final outcome. -/

/-- An observable event of the retry wrapper: the `i`-th call of the wrapped
function, or a `time.sleep(d)`. -/
inductive RetryEv (δ : Type) where
  | call (i : Nat)
  | sleep (d : δ)
deriving DecidableEq, Repr

/-- Final outcome of the retry wrapper: a returned value, a re-raised
exception, or the literal `False` returned when the loop body never ran. -/
inductive RetryResult (ε α : Type) where
  | value (a : α)
  | raised (e : ε)
  | retFalse
deriving DecidableEq, Repr

/-- The `while attempts < max_retries` loop of `with_retry`'s `wrapper`
(`sora_utils.py` lines 156–180), with `fuel = max_retries - attempts`
remaining iterations and `i` the index of the next call.  On success the
value is returned at once; on an exception the wrapper sleeps `retry_delay`
only when another attempt remains; after the last failing attempt the last
exception is re-raised. -/
def retryLoop {ε α δ : Type} (f : Nat → Except ε α) (d : δ) :
    Nat → Nat → List (RetryEv δ) × RetryResult ε α
  | 0, _ => ([], .retFalse)
  | 1, i =>
    match f i with
    | .ok a => ([.call i], .value a)
    | .error e => ([.call i], .raised e)
  | fuel + 2, i =>
    match f i with
    | .ok a => ([.call i], .value a)
    | .error _ =>
      let rest := retryLoop f d (fuel + 1) (i + 1)
      (.call i :: .sleep d :: rest.1, rest.2)

/-- `with_retry(max_retries, retry_delay)` applied to `f` and then invoked
once.  `max_retries` is a Python `int`, so it is modelled as `Int`; the
loop runs `max_retries.toNat` times. -/
def with_retry {ε α δ : Type} (f : Nat → Except ε α) (maxRetries : Int) (d : δ) :
    List (RetryEv δ) × RetryResult ε α :=
  retryLoop f d maxRetries.toNat 0

/-- Number of `call` events in a retry trace. -/
def countCalls {δ : Type} : List (RetryEv δ) → Nat
  | [] => 0
  | .call _ :: rest => countCalls rest + 1
  | .sleep _ :: rest => countCalls rest

/-- The trace shape claimed by the spec: `k` calls with indices
`i, i+1, …, i+k-1`, with exactly one sleep of duration `d` between two
consecutive calls and no sleep elsewhere. -/
def mkTraceFrom {δ : Type} (d : δ) (i : Nat) : Nat → List (RetryEv δ)
  | 0 => []
  | 1 => [.call i]
  | k + 2 => .call i :: .sleep d :: mkTraceFrom d (i + 1) (k + 1)

theorem countCalls_mkTraceFrom {δ : Type} (d : δ) :
    ∀ k i, countCalls (mkTraceFrom d i k) = k := by
  intro k
  induction k with
  | zero => intro i; rfl
  | succ n ih =>
    intro i
    cases n with
    | zero => rfl
    | succ m =>
      show countCalls (.call i :: .sleep d :: mkTraceFrom d (i + 1) (m + 1)) = m + 2
      show countCalls (mkTraceFrom d (i + 1) (m + 1)) + 1 = m + 2
      rw [ih]

/-- The number of calls made by the retry loop never exceeds the fuel. -/
theorem retryLoop_calls_le {ε α δ : Type} (f : Nat → Except ε α) (d : δ) :
    ∀ fuel i, countCalls (retryLoop f d fuel i).1 ≤ fuel := by
  intro fuel
  induction fuel with
  | zero => intro i; simp [retryLoop, countCalls]
  | succ n ih =>
    intro i
    cases n with
    | zero =>
      cases h : f i <;> simp [retryLoop, h, countCalls]
    | succ m =>
      cases h : f i with
      | ok a => simp [retryLoop, h, countCalls]
      | error e =>
        have := ih (i + 1)
        simp only [retryLoop, h, countCalls]
        omega

/-- As long as fuel remains, the retry loop makes at least one call. -/
theorem retryLoop_calls_pos {ε α δ : Type} (f : Nat → Except ε α) (d : δ)
    (fuel i : Nat) (hf : 1 ≤ fuel) : 1 ≤ countCalls (retryLoop f d fuel i).1 := by
  match fuel, hf with
  | 1, _ => cases h : f i <;> simp [retryLoop, h, countCalls]
  | m + 2, _ =>
    cases h : f i with
    | ok a => simp [retryLoop, h, countCalls]
    | error e => simp [retryLoop, h, countCalls]

/-- Whenever the retry loop runs, its trace has the claimed shape: the calls
it makes are consecutive starting at `i`, with exactly one sleep of `d`
between consecutive calls. -/
theorem retryLoop_trace_shape {ε α δ : Type} (f : Nat → Except ε α) (d : δ) :
    ∀ fuel i, (retryLoop f d fuel i).1 =
      mkTraceFrom d i (countCalls (retryLoop f d fuel i).1) := by
  intro fuel
  induction fuel with
  | zero => intro i; rfl
  | succ n ih =>
    intro i
    cases n with
    | zero =>
      cases h : f i <;> simp [retryLoop, h, countCalls, mkTraceFrom]
    | succ m =>
      cases h : f i with
      | ok a => simp [retryLoop, h, countCalls, mkTraceFrom]
      | error e =>
        have hrec := ih (i + 1)
        have hpos := retryLoop_calls_pos f d (m + 1) (i + 1) (by omega)
        simp only [retryLoop, h, countCalls]
        cases hk : countCalls (retryLoop f d (m + 1) (i + 1)).1 with
        | zero => omega
        | succ k =>
          show RetryEv.call i :: RetryEv.sleep d :: (retryLoop f d (m + 1) (i + 1)).1 =
            mkTraceFrom d i (k + 2)
          show RetryEv.call i :: RetryEv.sleep d :: (retryLoop f d (m + 1) (i + 1)).1 =
            RetryEv.call i :: RetryEv.sleep d :: mkTraceFrom d (i + 1) (k + 1)
          rw [hrec, hk]

/-- If every call the loop can make fails, the loop makes exactly `fuel`
calls and re-raises the last exception. -/
theorem retryLoop_all_fail {ε α δ : Type} (f : Nat → Except ε α) (d : δ) :
    ∀ fuel i, 1 ≤ fuel → (∀ j, j < fuel → ∃ e, f (i + j) = .error e) →
      ∀ e, f (i + fuel - 1) = .error e →
        retryLoop f d fuel i = (mkTraceFrom d i fuel, .raised e) := by
  intro fuel
  induction fuel with
  | zero => intro i h; omega
  | succ n ih =>
    intro i _ hall e hlast
    cases n with
    | zero =>
      have : i + 1 - 1 = i := by omega
      rw [this] at hlast
      simp [retryLoop, hlast, mkTraceFrom]
    | succ m =>
      obtain ⟨e0, he0⟩ := hall 0 (by omega)
      rw [Nat.add_zero] at he0
      have hrec := ih (i + 1) (by omega)
        (fun j hj => by
          obtain ⟨ej, hej⟩ := hall (j + 1) (by omega)
          exact ⟨ej, by rw [show i + 1 + j = i + (j + 1) by omega]; exact hej⟩)
        e (by rw [show i + 1 + (m + 1) - 1 = i + (m + 2) - 1 by omega]; exact hlast)
      show (match f i with
        | .ok a => ([.call i], .value a)
        | .error _ =>
          let rest := retryLoop f d (m + 1) (i + 1)
          (.call i :: .sleep d :: rest.1, rest.2)) = (mkTraceFrom d i (m + 2), .raised e)
      rw [he0, hrec]
      rfl

/-- If the first `m` calls fail and the `(m+1)`-st call succeeds with `a`
(and `m` is within the fuel), the loop returns `a` after exactly `m + 1`
calls, with no call after the successful one. -/
theorem retryLoop_first_success {ε α δ : Type} (f : Nat → Except ε α) (d : δ) :
    ∀ fuel i m a, m < fuel → (∀ j, j < m → ∃ e, f (i + j) = .error e) →
      f (i + m) = .ok a →
        retryLoop f d fuel i = (mkTraceFrom d i (m + 1), .value a) := by
  intro fuel
  induction fuel with
  | zero => intro i m a h; omega
  | succ n ih =>
    intro i m a hm hfail hok
    cases m with
    | zero =>
      rw [Nat.add_zero] at hok
      cases n with
      | zero => simp [retryLoop, hok, mkTraceFrom]
      | succ k =>
        show (match f i with
          | .ok a => ([.call i], .value a)
          | .error _ =>
            let rest := retryLoop f d (k + 1) (i + 1)
            (.call i :: .sleep d :: rest.1, rest.2)) = (mkTraceFrom d i 1, .value a)
        rw [hok]
        rfl
    | succ p =>
      obtain ⟨e0, he0⟩ := hfail 0 (by omega)
      rw [Nat.add_zero] at he0
      cases n with
      | zero => omega
      | succ k =>
        have hrec := ih (i + 1) p a (by omega)
          (fun j hj => by
            obtain ⟨ej, hej⟩ := hfail (j + 1) (by omega)
            exact ⟨ej, by rw [show i + 1 + j = i + (j + 1) by omega]; exact hej⟩)
          (by rw [show i + 1 + p = i + (p + 1) by omega]; exact hok)
        show (match f i with
          | .ok a => ([.call i], .value a)
          | .error _ =>
            let rest := retryLoop f d (k + 1) (i + 1)
            (.call i :: .sleep d :: rest.1, rest.2)) = (mkTraceFrom d i (p + 2), .value a)
        rw [he0, hrec]
        rfl

/-- C1: for every function `f` wrapped by `with_retry` with
`max_retries = N ≥ 1` and delay `d`: the wrapper calls `f` at most `N`
times; its trace consists of consecutive calls with exactly one sleep of
`d` between two consecutive failing calls; if the first `m` calls fail and
call `m` (with `m < N`) returns a value, that value is returned after
exactly `m + 1` calls (so no further call is made); and if all `N` calls
raise, the wrapper re-raises the exception of the last call. -/
theorem with_retry_spec {ε α δ : Type} (f : Nat → Except ε α) (N : Int) (d : δ)
    (hN : 1 ≤ N) :
    countCalls (with_retry f N d).1 ≤ N.toNat ∧
    (with_retry f N d).1 = mkTraceFrom d 0 (countCalls (with_retry f N d).1) ∧
    (∀ (m : Nat) (a : α), (m : Int) < N →
      (∀ j, j < m → ∃ e, f j = .error e) → f m = .ok a →
      with_retry f N d = (mkTraceFrom d 0 (m + 1), .value a)) ∧
    ((∀ (j : Nat), (j : Int) < N → ∃ e, f j = .error e) →
      ∀ e, f (N.toNat - 1) = .error e →
        with_retry f N d = (mkTraceFrom d 0 N.toNat, .raised e)) := by
  refine ⟨retryLoop_calls_le f d N.toNat 0, retryLoop_trace_shape f d N.toNat 0, ?_, ?_⟩
  · intro m a hm hfail hok
    exact retryLoop_first_success f d N.toNat 0 m a
      (by omega)
      (fun j hj => by simpa using hfail j hj)
      (by simpa using hok)
  · intro hall e hlast
    exact retryLoop_all_fail f d N.toNat 0 (by omega)
      (fun j hj => by
        rw [Nat.zero_add]
        refine hall j ?_
        omega)
      e (by simpa using hlast)

/-- Concrete wrapped function used in the witness for `with_retry_spec`:
fails on the first call and succeeds on the second. -/
def retryWitnessFn : Nat → Except String Nat :=
  fun i => if i = 0 then .error "boom" else .ok 7

/-- Witness for `with_retry_spec` at `N = 3`, `d = 5`: one failing call,
one sleep of 5, then the successful call returning 7. -/
theorem with_retry_spec_witness :
    with_retry retryWitnessFn 3 (5 : Nat) =
      ([.call 0, .sleep 5, .call 1], .value 7) := by
  have h := (with_retry_spec retryWitnessFn 3 (5 : Nat) (by decide)).2.2.1 1 7
    (by decide)
    (fun j hj => ⟨"boom", by
      have hj0 : j = 0 := by omega
      subst hj0
      rfl⟩)
    rfl
  exact h

/-- C9: for `max_retries = N ≤ 0`, the wrapper never invokes the wrapped
function (empty trace) and returns `False` without raising. -/
theorem with_retry_nonpos {ε α δ : Type} (f : Nat → Except ε α) (N : Int) (d : δ)
    (hN : N ≤ 0) : with_retry f N d = ([], .retFalse) := by
  unfold with_retry
  rw [Int.toNat_of_nonpos hN]
  rfl

/-- Concrete wrapped function used in the witness for `with_retry_nonpos`:
always succeeds — yet it is never called. -/
def retryNonposFn : Nat → Except String Nat := fun _ => .ok 42

/-- Witness for `with_retry_nonpos` at `N = -2`. -/
theorem with_retry_nonpos_witness :
    with_retry retryNonposFn (-2) (1 : Nat) = ([], .retFalse) :=
  with_retry_nonpos retryNonposFn (-2) 1 (by decide)

/-! ## Completion poller (`sora_utils.wait_for_image_generation`)

The page is modelled as a function from elapsed whole seconds to the
observations the poller makes: whether the `button:has-text('Download')`
element is visible, and whether `check_for_errors` finds one of its error
selectors visible.  The poller's wall clock is the elapsed time since
`start_time`, advanced by 2 by each `time.sleep(2)`. -/

/-- What the poller can observe on the page at a given elapsed time:
`download` is the visibility of the Download button, `error` is whether
`check_for_errors` reports an error. -/
structure PageObs where
  download : Bool
  error : Bool

/-- The `while time.time() - start_time < timeout` polling loop
(`sora_utils.py` lines 278–302), observed at elapsed time `t`: if the
Download button is visible, return `True`; else if an error is found,
return `False`; otherwise sleep 2 seconds and poll again. -/
def waitPollLoop (page : Nat → PageObs) (timeout : Nat) (t : Nat) : Bool :=
  if t < timeout then
    if (page t).download then true
    else if (page t).error then false
    else waitPollLoop page timeout (t + 2)
  else false
termination_by timeout - t
decreasing_by omega

/-- `wait_for_image_generation(page, logger, timeout)`: sleep 2 seconds,
run the initial `check_for_errors`, then enter the polling loop at elapsed
time 2. -/
def wait_for_image_generation (page : Nat → PageObs) (timeout : Nat) : Bool :=
  if (page 2).error then false
  else waitPollLoop page timeout 2

theorem waitPollLoop_true_iff (page : Nat → PageObs) (timeout : Nat) :
    ∀ t, waitPollLoop page timeout t = true ↔
      ∃ k, t + 2 * k < timeout ∧ (page (t + 2 * k)).download = true ∧
        ∀ j, j < k → (page (t + 2 * j)).error = false := by
  intro t
  rw [waitPollLoop]
  split_ifs with ht hd he
  · -- in time, download visible: returns true
    constructor
    · intro _
      exact ⟨0, by simpa using ht, by simpa using hd,
        fun j hj => absurd hj (by omega)⟩
    · intro _; rfl
  · -- in time, no download, error visible: returns false
    constructor
    · intro h; cases h
    · rintro ⟨k, hk, hkd, hke⟩
      cases k with
      | zero =>
        rw [Nat.mul_zero, Nat.add_zero] at hkd
        exact absurd hkd hd
      | succ m =>
        have h0 := hke 0 (by omega)
        rw [Nat.mul_zero, Nat.add_zero] at h0
        rw [he] at h0
        cases h0
  · -- in time, no download, no error: recurse at t + 2
    have hd' : (page t).download = false := by simpa using hd
    have he' : (page t).error = false := by simpa using he
    rw [waitPollLoop_true_iff page timeout (t + 2)]
    constructor
    · rintro ⟨k, hk, hkd, hke⟩
      refine ⟨k + 1, by omega, ?_, ?_⟩
      · rw [show t + 2 * (k + 1) = t + 2 + 2 * k by omega]; exact hkd
      · intro j hj
        cases j with
        | zero => simpa using he'
        | succ m =>
          have := hke m (by omega)
          rw [show t + 2 + 2 * m = t + 2 * (m + 1) by omega] at this
          exact this
    · rintro ⟨k, hk, hkd, hke⟩
      cases k with
      | zero =>
        rw [Nat.mul_zero, Nat.add_zero] at hkd
        exact absurd hkd hd
      | succ m =>
        refine ⟨m, by omega, ?_, ?_⟩
        · rw [show t + 2 + 2 * m = t + 2 * (m + 1) by omega]; exact hkd
        · intro j hj
          have := hke (j + 1) (by omega)
          rw [show t + 2 * (j + 1) = t + 2 + 2 * j by omega] at this
          exact this
  · -- out of time: returns false
    constructor
    · intro h; cases h
    · rintro ⟨k, hk, _, _⟩; omega
termination_by t => timeout - t
decreasing_by omega

/-- C2: `wait_for_image_generation` polls the page at elapsed times
2, 4, 6, … (a fixed 2-second sleep between checks).  It returns `True`
exactly when the initial error check (at elapsed time 2, before polling
starts) finds no error and the Download button is visible at some check
time `2 + 2k < timeout` such that no earlier check found an error.
Consequently it returns `False` when the initial check finds an error, and
`False` when the Download button is visible at no check time within the
timeout. -/
theorem wait_for_image_generation_spec (page : Nat → PageObs) (timeout : Nat) :
    (wait_for_image_generation page timeout = true ↔
      ((page 2).error = false ∧
        ∃ k, 2 + 2 * k < timeout ∧ (page (2 + 2 * k)).download = true ∧
          ∀ j, j < k → (page (2 + 2 * j)).error = false)) ∧
    ((page 2).error = true → wait_for_image_generation page timeout = false) ∧
    ((∀ k, 2 + 2 * k < timeout → (page (2 + 2 * k)).download = false) →
      wait_for_image_generation page timeout = false) := by
  refine ⟨?_, ?_, ?_⟩
  · unfold wait_for_image_generation
    split_ifs with he
    · constructor
      · intro h; cases h
      · rintro ⟨h2, _⟩
        rw [he] at h2
        cases h2
    · rw [waitPollLoop_true_iff]
      constructor
      · intro h
        exact ⟨by simpa using he, h⟩
      · rintro ⟨_, h⟩
        exact h
  · intro he
    unfold wait_for_image_generation
    rw [if_pos he]
  · intro hnd
    unfold wait_for_image_generation
    split_ifs with he
    · rfl
    · cases hres : waitPollLoop page timeout 2 with
      | false => rfl
      | true =>
        exfalso
        obtain ⟨k, hk, hkd, _⟩ := (waitPollLoop_true_iff page timeout 2).mp hres
        rw [hnd k hk] at hkd
        cases hkd

/-- Concrete page used in the witness for `wait_for_image_generation_spec`:
no errors ever; the Download button becomes visible at elapsed time 6. -/
def pollWitnessPage : Nat → PageObs :=
  fun t => { download := decide (6 ≤ t), error := false }

/-- Witness for `wait_for_image_generation_spec`: with a 10-second timeout
the poller reports completion. -/
theorem wait_for_image_generation_spec_witness :
    wait_for_image_generation pollWitnessPage 10 = true := by
  have h := (wait_for_image_generation_spec pollWitnessPage 10).1
  exact h.mpr ⟨rfl, 2, by decide, by decide, fun j hj => rfl⟩

/-! ## Downloader (`sora_utils.download_image`)

The body of `download_image` (inside the `@with_retry()` decoration) is
embedded as a function from a page model to a trace of completed browser
and file-system operations together with an `Except` outcome (`.ok true`
models `return True`, `.error` models a raised exception). -/

/-- Value of one base64 alphabet character (`A–Z a–z 0–9 + /`). -/
def b64Val (c : Char) : Option Nat :=
  if 'A' ≤ c ∧ c ≤ 'Z' then some (c.toNat - 'A'.toNat)
  else if 'a' ≤ c ∧ c ≤ 'z' then some (c.toNat - 'a'.toNat + 26)
  else if '0' ≤ c ∧ c ≤ '9' then some (c.toNat - '0'.toNat + 52)
  else if c = '+' then some 62
  else if c = '/' then some 63
  else none

/-- Decode a list of 6-bit values into bytes; the final group may hold
3 values (two bytes) or 2 values (one byte), as after stripping `=`
padding. -/
def b64Quads : List Nat → List Nat
  | a :: b :: c :: d :: rest =>
    (a * 4 + b / 16) :: (b % 16 * 16 + c / 4) :: (c % 4 * 64 + d) :: b64Quads rest
  | [a, b, c] => [a * 4 + b / 16, b % 16 * 16 + c / 4]
  | [a, b] => [a * 4 + b / 16]
  | [_] => []
  | [] => []

/-- `base64.b64decode` (default `validate=False`): characters outside the
base64 alphabet and `=` are discarded; the kept characters must form
full quads (counting `=` padding) with at most the final quad partial,
otherwise `binascii.Error` is raised (modelled as `none`). -/
def b64decode (s : List Char) : Option (List Nat) :=
  let kept := s.filter (fun c => (b64Val c).isSome || c = '=')
  let dataPart := kept.takeWhile (fun c => c ≠ '=')
  let padLen := kept.length - dataPart.length
  if (dataPart.length + padLen) % 4 ≠ 0 then none
  else if dataPart.length % 4 = 1 then none
  else if ¬ (kept.drop dataPart.length).all (fun c => c = '=') then none
  else some (b64Quads (dataPart.filterMap b64Val))

/-- Does `s` start with the character sequence `p`? -/
def startsWithSeq : List Char → List Char → Bool
  | [], _ => true
  | _ :: _, [] => false
  | p :: ps, c :: cs => p = c && startsWithSeq ps cs

/-- Consume characters up to the next `"`; returns the consumed characters
(the regex capture `[^"]+` content) or `none` when no closing `"` exists. -/
def takeCapture : List Char → Option (List Char)
  | [] => none
  | c :: rest =>
    if c = '"' then some []
    else
      match takeCapture rest with
      | some cap => some (c :: cap)
      | none => none

/-- The literal part of the pattern
`r'<img src="data:image/png;base64,([^"]+)"'`. -/
def b64Marker : List Char := "<img src=\"data:image/png;base64,".data

/-- Try the regex at the current position: the literal marker, then a
non-empty capture of non-`"` characters, then `"`. -/
def b64MatchAt (s : List Char) : Option (List Char) :=
  if startsWithSeq b64Marker s then
    match takeCapture (s.drop b64Marker.length) with
    | some [] => none
    | some cap => some cap
    | none => none
  else none

/-- `re.search` for the pattern: try every position left to right and
return the first capture. -/
def findB64 : List Char → Option (List Char)
  | [] => none
  | c :: rest =>
    match b64MatchAt (c :: rest) with
    | some cap => some cap
    | none => findB64 rest

/-- A completed operation performed by `download_image`. -/
inductive DlStep where
  | click
  | waitElement
  | getSrc
  | openPage (url : String)
  | extract
  | decode
  | write (path : String) (bytes : List Nat)
  | closePage
  | validate
deriving DecidableEq, Repr

/-- The exceptions `download_image` can raise (each re-raised to the retry
wrapper after being logged). -/
inductive DlErr where
  | clickFailed
  | noElement
  | noSrc
  | noData
  | decodeFailed
  | validateFailed
deriving DecidableEq, Repr

/-- Observable state of the page as far as `download_image` is concerned. -/
structure DlPage where
  /-- `page.click("button:has-text('Download')")` does not raise. -/
  clickOk : Bool
  /-- `wait_for_element(page, "img.fullsize-image", logger)` succeeds
  (it returns `True` or raises after its retries). -/
  fullsizeVisible : Bool
  /-- `page.get_attribute("img.fullsize-image", "src")`
  (`none` models `None`, `some ""` is also falsy in Python). -/
  srcAttr : Option String
  /-- content of the freshly opened page after `goto(url)`. -/
  contentOf : String → String
  /-- `validate_image(image_path, logger)` result. -/
  validateOk : Bool

/-- The body of `download_image(page, image_path, logger)`
(`sora_utils.py` lines 367–409): click the Download button, wait for the
full-size image element, read its `src`, open the `src` URL in a new
page, regex-extract the base64 payload from that page's content, decode
it, write the bytes to `image_path`, close the extra page, validate, and
return `True`.  The trace lists the operations that completed. -/
def download_image (pg : DlPage) (path : String) :
    List DlStep × Except DlErr Bool :=
  if ¬ pg.clickOk then ([], .error .clickFailed)
  else if ¬ pg.fullsizeVisible then ([.click], .error .noElement)
  else
    match pg.srcAttr with
    | none => ([.click, .waitElement], .error .noSrc)
    | some src =>
      if src = "" then ([.click, .waitElement], .error .noSrc)
      else
        let content := pg.contentOf src
        match findB64 content.data with
        | none =>
          ([.click, .waitElement, .getSrc, .openPage src, .closePage],
            .error .noData)
        | some cap =>
          match b64decode cap with
          | none =>
            ([.click, .waitElement, .getSrc, .openPage src, .extract],
              .error .decodeFailed)
          | some bytes =>
            if ¬ pg.validateOk then
              ([.click, .waitElement, .getSrc, .openPage src, .extract,
                .decode, .write path bytes, .closePage],
                .error .validateFailed)
            else
              ([.click, .waitElement, .getSrc, .openPage src, .extract,
                .decode, .write path bytes, .closePage, .validate],
                .ok true)

/-- C3: `download_image` performs, in this order: click the Download
button, open the image's `src` URL in a newly created page, regex-extract
the `data:image/png;base64,…` payload from that page's content, decode
it, and write the decoded bytes to the target path.  It returns `True`
exactly when every step (including the final validation) succeeds, and it
raises when the full-size image element, its `src` attribute, or the
base64 payload cannot be obtained. -/
theorem download_image_spec (pg : DlPage) (path : String) :
    ((download_image pg path).2 = .ok true ↔
      pg.clickOk = true ∧ pg.fullsizeVisible = true ∧
      (∃ src cap bytes, pg.srcAttr = some src ∧ src ≠ "" ∧
        findB64 (pg.contentOf src).data = some cap ∧
        b64decode cap = some bytes) ∧
      pg.validateOk = true) ∧
    (∀ src cap bytes, pg.clickOk = true → pg.fullsizeVisible = true →
      pg.srcAttr = some src → src ≠ "" →
      findB64 (pg.contentOf src).data = some cap →
      b64decode cap = some bytes → pg.validateOk = true →
      download_image pg path =
        ([.click, .waitElement, .getSrc, .openPage src, .extract,
          .decode, .write path bytes, .closePage, .validate], .ok true)) ∧
    (pg.clickOk = true → pg.fullsizeVisible = false →
      download_image pg path = ([.click], .error .noElement)) ∧
    (pg.clickOk = true → pg.fullsizeVisible = true →
      (pg.srcAttr = none ∨ pg.srcAttr = some "") →
      download_image pg path = ([.click, .waitElement], .error .noSrc)) ∧
    (∀ src, pg.clickOk = true → pg.fullsizeVisible = true →
      pg.srcAttr = some src → src ≠ "" →
      findB64 (pg.contentOf src).data = none →
      download_image pg path =
        ([.click, .waitElement, .getSrc, .openPage src, .closePage],
          .error .noData)) := by
  refine ⟨?_, ?_, ?_, ?_, ?_⟩
  · by_cases hc : pg.clickOk = true
    · by_cases hf : pg.fullsizeVisible = true
      · cases hs : pg.srcAttr with
        | none => simp [download_image, hc, hf, hs]
        | some src =>
          by_cases hsrc : src = ""
          · subst hsrc; simp [download_image, hc, hf, hs]
          · cases hfind : findB64 (pg.contentOf src).data with
            | none => simp [download_image, hc, hf, hs, hsrc, hfind]
            | some cap =>
              cases hdec : b64decode cap with
              | none => simp [download_image, hc, hf, hs, hsrc, hfind, hdec]
              | some bytes =>
                by_cases hv : pg.validateOk = true <;>
                  simp [download_image, hc, hf, hs, hsrc, hfind, hdec, hv]
      · simp [download_image, hc, hf]
    · simp [download_image, hc]
  · intro src cap bytes hc hf hs hsrc hfind hdec hv
    simp [download_image, hc, hf, hs, hsrc, hfind, hdec, hv]
  · intro hc hf
    simp [download_image, hc, hf]
  · intro hc hf hs
    cases hs with
    | inl h => simp [download_image, hc, hf, h]
    | inr h => simp [download_image, hc, hf, h]
  · intro src hc hf hs hsrc hfind
    simp [download_image, hc, hf, hs, hsrc, hfind]

/-- Concrete page used in the witness for `download_image_spec`: every
operation succeeds and the opened page's content holds a 4-character
base64 payload decoding to three zero bytes. -/
def dlWitnessPage : DlPage where
  clickOk := true
  fullsizeVisible := true
  srcAttr := some "blob:img"
  contentOf := fun _ => "<html><img src=\"data:image/png;base64,AAAA\"></html>"
  validateOk := true

/-- Witness for `download_image_spec`: the successful run performs all
steps in order and returns `True`. -/
theorem download_image_spec_witness :
    download_image dlWitnessPage "out.png" =
      ([.click, .waitElement, .getSrc, .openPage "blob:img", .extract,
        .decode, .write "out.png" [0, 0, 0], .closePage, .validate],
        .ok true) := by
  have h := (download_image_spec dlWitnessPage "out.png").2.1
    "blob:img" "AAAA".data [0, 0, 0] rfl rfl rfl (by decide)
    (by decide) (by decide) rfl
  exact h

/-! ## Configuration (`sora_utils.DEFAULT_CONFIG`, `load_env_config`)

The process environment is modelled as a partial map from variable names
to values.  `load_env_config` copies `DEFAULT_CONFIG` and overrides each
key by the environment variable of the same name when it is set. -/

/-- The `DEFAULT_CONFIG` dictionary (`sora_utils.py` lines 20–31), in
insertion order. -/
def DEFAULT_CONFIG : List (String × String) :=
  [("SORA_URL", "https://sora.com"),
   ("HEADLESS", "False"),
   ("LOG_LEVEL", "INFO"),
   ("MAX_RETRIES", "3"),
   ("RETRY_DELAY", "2"),
   ("WAIT_TIMEOUT", "60"),
   ("GENERATION_TIMEOUT", "300"),
   ("MAX_SESSION_TIME", "600"),
   ("IMAGE_DIR", "images"),
   ("LOG_DIR", "logs")]

/-- `load_env_config()`: start from a copy of `DEFAULT_CONFIG` and, for
each of its keys, take `os.environ.get(key)` when set. -/
def load_env_config (env : String → Option String) : List (String × String) :=
  DEFAULT_CONFIG.map (fun kv => (kv.1, (env kv.1).getD kv.2))

theorem lookup_map_env (env : String → Option String) :
    ∀ (l : List (String × String)) (k : String),
      (l.map (fun kv => (kv.1, (env kv.1).getD kv.2))).lookup k =
        (l.lookup k).map (fun v => (env k).getD v) := by
  intro l
  induction l with
  | nil => intro k; rfl
  | cons kv rest ih =>
    intro k
    by_cases hk : k = kv.1
    · subst hk
      simp [List.lookup]
    · have hbe : (k == kv.1) = false := beq_eq_false_iff_ne.mpr hk
      simp [List.lookup, hbe, ih k]

/-- `lookup_map_env` specialised to `load_env_config`. -/
theorem load_env_lookup (env : String → Option String) (k : String) :
    (load_env_config env).lookup k =
      (DEFAULT_CONFIG.lookup k).map (fun v => (env k).getD v) :=
  lookup_map_env env DEFAULT_CONFIG k

/-- C5: the result of `load_env_config` has exactly the keys of
`DEFAULT_CONFIG` (in order); for every key its value is the environment
variable of the same name when one is set and the built-in default
otherwise; keys outside `DEFAULT_CONFIG` are absent even when set in the
environment. -/
theorem load_env_config_spec (env : String → Option String) :
    (load_env_config env).map Prod.fst = DEFAULT_CONFIG.map Prod.fst ∧
    (∀ k, (load_env_config env).lookup k =
      (DEFAULT_CONFIG.lookup k).map (fun v => (env k).getD v)) ∧
    (∀ k, DEFAULT_CONFIG.lookup k = none →
      (load_env_config env).lookup k = none) := by
  refine ⟨rfl, fun k => load_env_lookup env k, fun k hk => ?_⟩
  rw [load_env_lookup env k, hk]
  rfl

/-- Concrete environment for the witness of `load_env_config_spec`: only
`MAX_RETRIES` and the unrelated `HOME` are set. -/
def envWitness : String → Option String :=
  fun k => if k = "MAX_RETRIES" then some "5"
    else if k = "HOME" then some "/root" else none

/-- Witness for `load_env_config_spec`: the set variable overrides its
default, an unset key keeps its default, and a variable outside
`DEFAULT_CONFIG` does not appear. -/
theorem load_env_config_spec_witness :
    (load_env_config envWitness).lookup "MAX_RETRIES" = some "5" ∧
    (load_env_config envWitness).lookup "HEADLESS" = some "False" ∧
    (load_env_config envWitness).lookup "HOME" = none := by
  refine ⟨?_, ?_, (load_env_config_spec envWitness).2.2 "HOME" (by rfl)⟩
  · rw [(load_env_config_spec envWitness).2.1 "MAX_RETRIES"]; rfl
  · rw [(load_env_config_spec envWitness).2.1 "HEADLESS"]; rfl

/-! ## Global timeout (`sora_utils.setup_global_timeout`)

The signal machinery is embedded as explicit state: installing a handler
and arming the alarm yield an `AlarmState`; per POSIX semantics the armed
alarm delivers `SIGALRM` after `alarmSeconds` seconds, and the installed
handler then runs. -/

/-- The only signal the script handles. -/
inductive PySignal where
  | SIGALRM
deriving DecidableEq

/-- Observable behaviour of a signal handler: what it logs at CRITICAL
level and the exit status it terminates the process with. -/
structure HandlerBehavior where
  criticalLog : String
  exitCode : Nat
deriving DecidableEq

/-- The nested `timeout_handler(signum, frame)` of `setup_global_timeout`:
log a critical message and `sys.exit(1)`. -/
def timeout_handler (timeout : Nat) : HandlerBehavior :=
  { criticalLog := "CRITICAL: Global session timeout exceeded (" ++ toString timeout ++ "s)",
    exitCode := 1 }

/-- Signal state after `signal.signal(...)` and `signal.alarm(...)`. -/
structure AlarmState where
  handler : PySignal → Option HandlerBehavior
  alarmSeconds : Nat

/-- State produced by installing `timeout_handler` for `SIGALRM` and
arming the alarm for `t` seconds. -/
def armAlarm (t : Nat) : AlarmState :=
  { handler := fun s => match s with | .SIGALRM => some (timeout_handler t),
    alarmSeconds := t }

/-- `int(s)` on the configuration string (digits only; non-numeric strings
raise, modelled as `none`). -/
def pyIntOfString (s : String) : Option Nat :=
  if s.data ≠ [] ∧ s.data.all (fun c => c.isDigit) then
    some (s.data.foldl (fun acc c => acc * 10 + (c.toNat - 48)) 0)
  else none

/-- `setup_global_timeout(timeout, logger)` (`sora_utils.py` lines
521–544): when `timeout` is `None` it defaults to
`int(CONFIG["MAX_SESSION_TIME"])`; then it installs `timeout_handler` for
`SIGALRM` and arms the alarm for that many seconds. -/
def setup_global_timeout (timeout : Option Nat) (env : String → Option String) :
    Option AlarmState :=
  match timeout with
  | some t => some (armAlarm t)
  | none =>
    match ((load_env_config env).lookup "MAX_SESSION_TIME").bind pyIntOfString with
    | some t => some (armAlarm t)
    | none => none

/-- Process status under the armed alarm: POSIX delivers `SIGALRM` once
`alarmSeconds` (non-zero) seconds have elapsed, and the installed handler
then runs, terminating the process with its exit code. -/
def processStatusAt (st : AlarmState) (time : Nat) : Option Nat :=
  if 0 < st.alarmSeconds ∧ st.alarmSeconds ≤ time then
    match st.handler .SIGALRM with
    | some h => some h.exitCode
    | none => none
  else none

/-- C4: `setup_global_timeout t` installs a `SIGALRM` handler and arms the
alarm for `t` seconds — defaulting to `MAX_SESSION_TIME = 600` seconds
when `t` is not given and the environment does not override it; the
handler logs the critical timeout message and exits with status 1, so at
any time past `t` seconds the process has terminated with status 1. -/
theorem setup_global_timeout_spec (env : String → Option String) :
    (env "MAX_SESSION_TIME" = none →
      setup_global_timeout none env = some (armAlarm 600)) ∧
    (∀ t, setup_global_timeout (some t) env = some (armAlarm t)) ∧
    (∀ t, (armAlarm t).handler .SIGALRM = some (timeout_handler t) ∧
      (armAlarm t).alarmSeconds = t ∧
      (timeout_handler t).exitCode = 1 ∧
      (timeout_handler t).criticalLog =
        "CRITICAL: Global session timeout exceeded (" ++ toString t ++ "s)") ∧
    (∀ t time, 0 < t → t ≤ time →
      processStatusAt (armAlarm t) time = some 1) := by
  refine ⟨?_, fun t => rfl, fun t => ⟨rfl, rfl, rfl, rfl⟩, ?_⟩
  · intro h
    unfold setup_global_timeout
    rw [load_env_lookup env "MAX_SESSION_TIME"]
    rw [show DEFAULT_CONFIG.lookup "MAX_SESSION_TIME" = some "600" from rfl]
    rw [h]
    rfl
  · intro t time ht htime
    unfold processStatusAt
    rw [if_pos ⟨by simpa [armAlarm] using ht, by simpa [armAlarm] using htime⟩]
    rfl

/-- Witness for `setup_global_timeout_spec`: with an empty environment the
default alarm is 600 seconds and at time 600 the process has exited with
status 1. -/
theorem setup_global_timeout_spec_witness :
    setup_global_timeout none (fun _ => none) = some (armAlarm 600) ∧
    processStatusAt (armAlarm 600) 600 = some 1 :=
  ⟨(setup_global_timeout_spec (fun _ => none)).1 rfl,
   (setup_global_timeout_spec (fun _ => none)).2.2.2 600 600 (by decide) (by decide)⟩

/-! ## Stealth launcher (`stealth_launcher.py`)

`random.choice(xs)` picks an index uniformly from `0 … len(xs)-1`; the
index is modelled as an explicit `Fin` argument, so the theorems quantify
over every possible random outcome. -/

/-- The fixed `USER_AGENTS` list (`stealth_launcher.py` lines 13–18). -/
def USER_AGENTS : List String :=
  ["Mozilla/5.0 (Windows NT 10.0; Win64; x64) AppleWebKit/537.36 (KHTML, like Gecko) Chrome/123.0.0.0 Safari/537.36",
   "Mozilla/5.0 (Macintosh; Intel Mac OS X 10_15_7) AppleWebKit/537.36 (KHTML, like Gecko) Chrome/123.0.0.0 Safari/537.36",
   "Mozilla/5.0 (Windows NT 10.0; Win64; x64; rv:123.0) Gecko/20100101 Firefox/123.0",
   "Mozilla/5.0 (Windows NT 10.0; Win64; x64) AppleWebKit/537.36 (KHTML, like Gecko) Chrome/123.0.0.0 Safari/537.36 Edg/123.0.0.0"]

/-- The fixed `VIEWPORT_SIZES` list (width, height)
(`stealth_launcher.py` lines 20–25). -/
def VIEWPORT_SIZES : List (Nat × Nat) :=
  [(1920, 1080), (1366, 768), (1440, 900), (2560, 1440)]

/-- `get_random_user_agent()` = `random.choice(USER_AGENTS)` with random
index `k`. -/
def get_random_user_agent (k : Fin USER_AGENTS.length) : String :=
  USER_AGENTS.get k

/-- `get_random_viewport()` = `random.choice(VIEWPORT_SIZES)` with random
index `j`. -/
def get_random_viewport (j : Fin VIEWPORT_SIZES.length) : Nat × Nat :=
  VIEWPORT_SIZES.get j

/-- The browser-context configuration `launch_stealth_browser` passes to
`browser.new_context` (the fields the claims are about). -/
structure StealthContextConfig where
  userAgent : String
  viewport : Nat × Nat
deriving DecidableEq, Repr

/-- `launch_stealth_browser(headless, user_agent, viewport, logger)`
(`stealth_launcher.py` lines 35–182): when `user_agent` (resp.
`viewport`) is `None`, a random element of the fixed list is chosen; the
context is created with the resulting pair. -/
def launch_stealth_browser (user_agent : Option String)
    (viewport : Option (Nat × Nat))
    (k : Fin USER_AGENTS.length) (j : Fin VIEWPORT_SIZES.length) :
    StealthContextConfig :=
  { userAgent := user_agent.getD (get_random_user_agent k),
    viewport := viewport.getD (get_random_viewport j) }

/-- C7: called without an explicit user agent or viewport,
`launch_stealth_browser` always configures the context with one of the
four fixed `USER_AGENTS` entries and one of the four fixed
`VIEWPORT_SIZES` entries, and every entry of each list is reachable (the
choice is uniform over the four indices). -/
theorem launch_stealth_browser_random_fingerprint :
    USER_AGENTS.length = 4 ∧ VIEWPORT_SIZES.length = 4 ∧
    (∀ (k : Fin USER_AGENTS.length) (j : Fin VIEWPORT_SIZES.length),
      (launch_stealth_browser none none k j).userAgent ∈ USER_AGENTS ∧
      (launch_stealth_browser none none k j).viewport ∈ VIEWPORT_SIZES) ∧
    (∀ ua, ua ∈ USER_AGENTS → ∃ k, ∀ j,
      (launch_stealth_browser none none k j).userAgent = ua) ∧
    (∀ vp, vp ∈ VIEWPORT_SIZES → ∃ j, ∀ k,
      (launch_stealth_browser none none k j).viewport = vp) := by
  refine ⟨rfl, rfl, ?_, ?_, ?_⟩
  · intro k j
    exact ⟨List.get_mem USER_AGENTS k.1 k.2, List.get_mem VIEWPORT_SIZES j.1 j.2⟩
  · intro ua hua
    obtain ⟨k, hk⟩ := List.mem_iff_get.mp hua
    exact ⟨k, fun j => hk⟩
  · intro vp hvp
    obtain ⟨j, hj⟩ := List.mem_iff_get.mp hvp
    exact ⟨j, fun k => hj⟩

/-- Witness for `launch_stealth_browser_random_fingerprint`: random index
2 for each list yields the Firefox user agent and the 1440×900 viewport,
both members of the fixed lists. -/
theorem launch_stealth_browser_random_fingerprint_witness :
    (launch_stealth_browser none none
      (⟨2, by decide⟩ : Fin USER_AGENTS.length)
      (⟨2, by decide⟩ : Fin VIEWPORT_SIZES.length)).userAgent ∈ USER_AGENTS ∧
    (launch_stealth_browser none none
      (⟨2, by decide⟩ : Fin USER_AGENTS.length)
      (⟨2, by decide⟩ : Fin VIEWPORT_SIZES.length)).viewport ∈ VIEWPORT_SIZES :=
  launch_stealth_browser_random_fingerprint.2.2.1
    (⟨2, by decide⟩ : Fin USER_AGENTS.length)
    (⟨2, by decide⟩ : Fin VIEWPORT_SIZES.length)

/-! ## Session state (`stealth_launcher.apply_session_state`)

A parsed JSON value inside a cookie is modelled by `JVal`; a cookie (a
JSON object) by an association list in insertion order, with Python
`dict` semantics: assignment replaces the value in place, deletion
removes the pair, iteration follows insertion order. -/

/-- A JSON scalar appearing as a cookie field or storage value. -/
inductive JVal where
  | str (s : String)
  | num (n : Int)
  | bool (b : Bool)
  | null
deriving DecidableEq, Repr

/-- Python `dict` assignment `d[k] = v`: replace the value at `k` in
place, or append the pair when `k` is absent. -/
def setKey (k : String) (v : JVal) : List (String × JVal) → List (String × JVal)
  | [] => [(k, v)]
  | kv :: rest => if kv.1 = k then (k, v) :: rest else kv :: setKey k v rest

/-- Python `dict` deletion / `pop`: remove the pair with key `k`. -/
def delKey (k : String) (l : List (String × JVal)) : List (String × JVal) :=
  l.filter (fun kv => !(kv.1 == k))

/-- The eight keys `apply_session_state` keeps in a cookie
(`stealth_launcher.py` line 479). -/
def allowedCookieKeys : List String :=
  ["name", "value", "domain", "path", "expires", "httpOnly", "secure", "sameSite"]

/-- The `sameSite` normalisation (`stealth_launcher.py` lines 470–476):
the string values `no_restriction`, `lax`, `strict` become `None`, `Lax`,
`Strict`; anything else is left alone. -/
def sameSiteStep (c : List (String × JVal)) : List (String × JVal) :=
  match c.lookup "sameSite" with
  | some (.str "no_restriction") => setKey "sameSite" (.str "None") c
  | some (.str "lax") => setKey "sameSite" (.str "Lax") c
  | some (.str "strict") => setKey "sameSite" (.str "Strict") c
  | _ => c

/-- The key filter (`stealth_launcher.py` lines 478–480): delete every
key outside `allowedCookieKeys`. -/
def keyFilterStep (c : List (String × JVal)) : List (String × JVal) :=
  c.filter (fun kv => allowedCookieKeys.contains kv.1)

/-- The `expirationDate` → `expires` rename (`stealth_launcher.py` lines
482–483): `processed_cookie["expires"] = processed_cookie.pop("expirationDate")`
when the key is present. -/
def expirationRenameStep (c : List (String × JVal)) : List (String × JVal) :=
  match c.lookup "expirationDate" with
  | some v => setKey "expires" v (delKey "expirationDate" c)
  | none => c

/-- Processing of one cookie by `apply_session_state`, in source order:
normalise `sameSite`, filter the keys, then attempt the
`expirationDate` rename. -/
def process_cookie (c : List (String × JVal)) : List (String × JVal) :=
  expirationRenameStep (keyFilterStep (sameSiteStep c))

theorem lookup_filter_keys (p : String → Bool) (k : String) (hk : p k = false) :
    ∀ l : List (String × JVal), (l.filter (fun kv => p kv.1)).lookup k = none := by
  intro l
  induction l with
  | nil => rfl
  | cons kv rest ih =>
    by_cases hp : p kv.1
    · have hne : (k == kv.1) = false := by
        apply beq_eq_false_iff_ne.mpr
        intro h
        rw [h, hp] at hk
        cases hk
      simp [List.filter, hp, List.lookup, hne, ih]
    · simp [List.filter, hp, ih]

theorem lookup_filter_none (p : String × JVal → Bool) (k : String) :
    ∀ l : List (String × JVal), l.lookup k = none →
      (l.filter p).lookup k = none := by
  intro l
  induction l with
  | nil => intro _; rfl
  | cons kv rest ih =>
    intro h
    cases hbe : (k == kv.1) with
    | true => simp [List.lookup, hbe] at h
    | false =>
      have hrest : rest.lookup k = none := by
        simpa [List.lookup, hbe] using h
      by_cases hp : p kv
      · simp [List.filter, hp, List.lookup, hbe, ih hrest]
      · simp [List.filter, hp, ih hrest]

theorem lookup_setKey_ne (k k' : String) (v : JVal) (hne : k ≠ k') :
    ∀ l : List (String × JVal), (setKey k' v l).lookup k = l.lookup k := by
  intro l
  induction l with
  | nil => simp [setKey, List.lookup, beq_eq_false_iff_ne.mpr hne]
  | cons kv rest ih =>
    by_cases hk : kv.1 = k'
    · have : (k == k') = false := beq_eq_false_iff_ne.mpr hne
      have hkk : (k == kv.1) = false := by rw [hk]; exact this
      simp [setKey, hk, List.lookup, this, hkk]
    · simp [setKey, hk, List.lookup, ih]

theorem lookup_setKey_self (k : String) (v : JVal) :
    ∀ l : List (String × JVal), (setKey k v l).lookup k = some v := by
  intro l
  induction l with
  | nil => simp [setKey, List.lookup]
  | cons kv rest ih =>
    by_cases hk : kv.1 = k
    · simp [setKey, hk, List.lookup]
    · have : (k == kv.1) = false := beq_eq_false_iff_ne.mpr (fun h => hk h.symm)
      simp [setKey, hk, List.lookup, this, ih]

theorem lookup_cons (k : String) (kv : String × JVal) (l : List (String × JVal)) :
    (kv :: l).lookup k = if (k == kv.1) = true then some kv.2 else l.lookup k := by
  rcases kv with ⟨a, b⟩
  cases hbe : (k == a) <;> simp [List.lookup, hbe]

theorem keyFilterStep_cons (kv : String × JVal) (rest : List (String × JVal)) :
    keyFilterStep (kv :: rest) =
      if allowedCookieKeys.contains kv.1 = true then kv :: keyFilterStep rest
      else keyFilterStep rest := by
  unfold keyFilterStep
  exact List.filter_cons

theorem lookup_keyFilterStep_mem (k : String)
    (hk : allowedCookieKeys.contains k = true) :
    ∀ l : List (String × JVal), (keyFilterStep l).lookup k = l.lookup k := by
  intro l
  induction l with
  | nil => rfl
  | cons kv rest ih =>
    rw [keyFilterStep_cons]
    by_cases hp : allowedCookieKeys.contains kv.1 = true
    · rw [if_pos hp, lookup_cons, lookup_cons]
      cases hbe : (k == kv.1) with
      | true => simp
      | false => simpa using ih
    · have hne : (k == kv.1) = false := by
        apply beq_eq_false_iff_ne.mpr
        intro h
        rw [← h] at hp
        exact hp hk
      rw [if_neg hp, lookup_cons, if_neg (by rw [hne]; exact Bool.false_ne_true)]
      exact ih

theorem lookup_sameSiteStep_ne (k : String) (hk : k ≠ "sameSite")
    (c : List (String × JVal)) :
    (sameSiteStep c).lookup k = c.lookup k := by
  unfold sameSiteStep
  cases hss : c.lookup "sameSite" with
  | none => rfl
  | some v =>
    cases v with
    | str s =>
      by_cases h1 : s = "no_restriction"
      · subst h1; exact lookup_setKey_ne k "sameSite" _ hk c
      · by_cases h2 : s = "lax"
        · subst h2; exact lookup_setKey_ne k "sameSite" _ hk c
        · by_cases h3 : s = "strict"
          · subst h3; exact lookup_setKey_ne k "sameSite" _ hk c
          · simp [h1, h2, h3]
    | num n => rfl
    | bool b => rfl
    | null => rfl

/-- The rename step is dead code after the filter: the filtered cookie
never holds `expirationDate`, so `process_cookie` is the filter applied
to the normalised cookie. -/
theorem process_cookie_eq_filter (c : List (String × JVal)) :
    process_cookie c = keyFilterStep (sameSiteStep c) := by
  unfold process_cookie expirationRenameStep
  rw [show (keyFilterStep (sameSiteStep c)).lookup "expirationDate" = none from
    lookup_filter_keys _ "expirationDate" rfl (sameSiteStep c)]

/-- C8: every key of the cookie passed to `context.add_cookies` lies in
the eight allowed keys, and a cookie whose expiry is carried under
`expirationDate` (with no `expires` key) is passed on with no expiry
field at all: both `expires` and `expirationDate` are absent from the
processed cookie. -/
theorem process_cookie_keys_spec (c : List (String × JVal)) :
    (∀ kv ∈ process_cookie c, kv.1 ∈ allowedCookieKeys) ∧
    (c.lookup "expires" = none →
      (process_cookie c).lookup "expires" = none ∧
      (process_cookie c).lookup "expirationDate" = none) := by
  constructor
  · intro kv hkv
    rw [process_cookie_eq_filter] at hkv
    have := List.of_mem_filter hkv
    exact List.mem_of_elem_eq_true (by simpa using this)
  · intro hexp
    rw [process_cookie_eq_filter]
    refine ⟨?_, lookup_filter_keys _ "expirationDate" rfl (sameSiteStep c)⟩
    apply lookup_filter_none
    rw [lookup_sameSiteStep_ne "expires" (by decide) c]
    exact hexp

/-- Witness for `process_cookie_keys_spec`: a cookie whose expiry comes
as `expirationDate` loses it entirely, and keeps only allowed keys. -/
theorem process_cookie_keys_spec_witness :
    (process_cookie
        [("name", .str "sid"), ("value", .str "abc"),
         ("expirationDate", .num 1735689600), ("hostOnly", .bool true)]).lookup
      "expires" = none ∧
    (process_cookie
        [("name", .str "sid"), ("value", .str "abc"),
         ("expirationDate", .num 1735689600), ("hostOnly", .bool true)]).lookup
      "expirationDate" = none :=
  (process_cookie_keys_spec
    [("name", .str "sid"), ("value", .str "abc"),
     ("expirationDate", .num 1735689600), ("hostOnly", .bool true)]).2 rfl

/-- One `localStorage`/`sessionStorage` item of an origin; `item.get("name")`
and `item.get("value")` may be missing. -/
structure StorageItem where
  nameV : Option JVal
  valueV : Option JVal
deriving DecidableEq, Repr

/-- One entry of the session file's `origins` list. -/
structure OriginData where
  origin : Option String
  localStorage : Option (List StorageItem)
  sessionStorage : Option (List StorageItem)
deriving DecidableEq, Repr

/-- The parsed content of `session.json`: the `cookies` list
(`session_data.get("cookies", [])`) and the `origins` list when the key
is present. -/
structure SessionData where
  cookies : List (List (String × JVal))
  origins : Option (List OriginData)

/-- The state of the session file as `apply_session_state` sees it:
missing (`os.path.exists` fails), unparsable (`json.load` raises), or
parsed. -/
inductive SessionFile where
  | missing
  | invalid
  | parsed (sd : SessionData)

/-- A side effect `apply_session_state` performs on the browser context. -/
inductive CtxAction where
  | addCookies (cs : List (List (String × JVal)))
  | setLocalStorage (url : String) (items : List (Option JVal × Option JVal))
  | setSessionStorage (url : String) (items : List (Option JVal × Option JVal))
deriving DecidableEq

/-- Does string `s` contain `pat` as a contiguous substring
(Python `pat in s`)? -/
def listHasSeq (pat : List Char) : List Char → Bool
  | [] => startsWithSeq pat []
  | c :: rest => startsWithSeq pat (c :: rest) || listHasSeq pat rest

/-- Python `"sora" in origin_url`. -/
def hasSora (url : String) : Bool := listHasSeq "sora".data url.data

/-- The storage effects of one origin (`stealth_launcher.py` lines
496–520): only origins whose URL contains `"sora"` are handled; for each
of `localStorage` and `sessionStorage` present, a page is opened on the
origin and every item is written. -/
def originActs (o : OriginData) : List CtxAction :=
  match o.origin with
  | none => []
  | some url =>
    if hasSora url then
      (match o.localStorage with
       | some items =>
         [.setLocalStorage url (items.map (fun it => (it.nameV, it.valueV)))]
       | none => []) ++
      (match o.sessionStorage with
       | some items =>
         [.setSessionStorage url (items.map (fun it => (it.nameV, it.valueV)))]
       | none => [])
    else []

/-- `apply_session_state(context, session_file, logger)`
(`stealth_launcher.py` lines 440–530).  Returns `False` when the file is
missing; the `try` body parses the JSON (a parse error is caught,
returning `False`), processes and adds the cookies (`addCookiesOk = false`
models `context.add_cookies` raising, also caught), then applies the
storage of each origin, and returns `True`. -/
def apply_session_state (file : SessionFile) (addCookiesOk : Bool) :
    Bool × List CtxAction :=
  match file with
  | .missing => (false, [])
  | .invalid => (false, [])
  | .parsed sd =>
    if addCookiesOk then
      (true, CtxAction.addCookies (sd.cookies.map process_cookie) ::
        (match sd.origins with
         | none => []
         | some os => os.flatMap originActs))
    else (false, [])

theorem setLocal_mem_originActs (o : OriginData) (url : String)
    (items : List (Option JVal × Option JVal)) :
    CtxAction.setLocalStorage url items ∈ originActs o ↔
      (o.origin = some url ∧ hasSora url = true ∧
        ∃ raw, o.localStorage = some raw ∧
          items = raw.map (fun it => (it.nameV, it.valueV))) := by
  unfold originActs
  cases ho : o.origin with
  | none => simp
  | some u =>
    by_cases hs : hasSora u
    · cases hl : o.localStorage with
      | none =>
        cases hss : o.sessionStorage with
        | none => simp [hs]
        | some sitems => simp [hs]
      | some litems =>
        cases hss : o.sessionStorage with
        | none =>
          simp only [hs, if_true, List.mem_append, List.mem_singleton,
            List.not_mem_nil, or_false]
          constructor
          · intro h
            cases h with
            | refl => exact ⟨rfl, hs, litems, rfl, rfl⟩
          · rintro ⟨hu, _, raw, hraw, hitems⟩
            cases hu
            cases hraw
            rw [hitems]
        | some sitems =>
          simp only [hs, if_true, List.mem_append, List.mem_singleton]
          constructor
          · intro h
            cases h with
            | inl h' =>
              cases h' with
              | refl => exact ⟨rfl, hs, litems, rfl, rfl⟩
            | inr h' => cases h'
          · rintro ⟨hu, _, raw, hraw, hitems⟩
            cases hu
            cases hraw
            left
            rw [hitems]
    · simp only [if_neg hs, List.not_mem_nil, false_iff]
      rintro ⟨hu, hsu, -⟩
      cases hu
      exact hs hsu

theorem setSession_mem_originActs (o : OriginData) (url : String)
    (items : List (Option JVal × Option JVal)) :
    CtxAction.setSessionStorage url items ∈ originActs o ↔
      (o.origin = some url ∧ hasSora url = true ∧
        ∃ raw, o.sessionStorage = some raw ∧
          items = raw.map (fun it => (it.nameV, it.valueV))) := by
  unfold originActs
  cases ho : o.origin with
  | none => simp
  | some u =>
    by_cases hs : hasSora u
    · cases hl : o.localStorage with
      | none =>
        cases hss : o.sessionStorage with
        | none => simp [hs]
        | some sitems =>
          simp only [hs, if_true, List.nil_append, List.mem_singleton]
          constructor
          · intro h
            cases h with
            | refl => exact ⟨rfl, hs, sitems, rfl, rfl⟩
          · rintro ⟨hu, _, raw, hraw, hitems⟩
            cases hu
            cases hraw
            rw [hitems]
      | some litems =>
        cases hss : o.sessionStorage with
        | none => simp [hs]
        | some sitems =>
          simp only [hs, if_true, List.mem_append, List.mem_singleton]
          constructor
          · intro h
            cases h with
            | inl h' => cases h'
            | inr h' =>
              cases h' with
              | refl => exact ⟨rfl, hs, sitems, rfl, rfl⟩
          · rintro ⟨hu, _, raw, hraw, hitems⟩
            cases hu
            cases hraw
            right
            rw [hitems]
    · simp only [if_neg hs, List.not_mem_nil, false_iff]
      rintro ⟨hu, hsu, -⟩
      cases hu
      exact hs hsu

/-- The list of origins actually iterated (`session_data.get("origins", [])`). -/
def originsList (sd : SessionData) : List OriginData :=
  match sd.origins with
  | none => []
  | some os => os

/-- C6: `apply_session_state` returns `False` when the session file is
missing, fails to parse, or applying it raises (modelled by
`context.add_cookies` failing); otherwise it adds every cookie of the
file's `cookies` list — processed, with `sameSite` values
`no_restriction`/`lax`/`strict` normalised to `None`/`Lax`/`Strict` — to
the context, applies the `localStorage` and `sessionStorage` items of
exactly the origins whose URL contains `"sora"`, and returns `True`. -/
theorem apply_session_state_spec (sd : SessionData) :
    (∀ ok, apply_session_state .missing ok = (false, [])) ∧
    (∀ ok, apply_session_state .invalid ok = (false, [])) ∧
    (apply_session_state (.parsed sd) false = (false, [])) ∧
    ((apply_session_state (.parsed sd) true).1 = true ∧
      (apply_session_state (.parsed sd) true).2.head? =
        some (.addCookies (sd.cookies.map process_cookie))) ∧
    (∀ c, c ∈ sd.cookies →
      (c.lookup "sameSite" = some (.str "no_restriction") →
        (process_cookie c).lookup "sameSite" = some (.str "None")) ∧
      (c.lookup "sameSite" = some (.str "lax") →
        (process_cookie c).lookup "sameSite" = some (.str "Lax")) ∧
      (c.lookup "sameSite" = some (.str "strict") →
        (process_cookie c).lookup "sameSite" = some (.str "Strict"))) ∧
    (∀ url items,
      (CtxAction.setLocalStorage url items ∈ (apply_session_state (.parsed sd) true).2 ↔
        ∃ o ∈ originsList sd, o.origin = some url ∧ hasSora url = true ∧
          ∃ raw, o.localStorage = some raw ∧
            items = raw.map (fun it => (it.nameV, it.valueV))) ∧
      (CtxAction.setSessionStorage url items ∈ (apply_session_state (.parsed sd) true).2 ↔
        ∃ o ∈ originsList sd, o.origin = some url ∧ hasSora url = true ∧
          ∃ raw, o.sessionStorage = some raw ∧
            items = raw.map (fun it => (it.nameV, it.valueV)))) := by
  refine ⟨fun ok => rfl, fun ok => rfl, rfl, ⟨rfl, rfl⟩, ?_, ?_⟩
  · intro c _
    refine ⟨?_, ?_, ?_⟩ <;> intro hss <;>
      rw [process_cookie_eq_filter,
        lookup_keyFilterStep_mem "sameSite" rfl (sameSiteStep c)] <;>
      unfold sameSiteStep <;> rw [hss] <;>
      exact lookup_setKey_self "sameSite" _ c
  · have h2 : (apply_session_state (.parsed sd) true).2 =
        CtxAction.addCookies (sd.cookies.map process_cookie) ::
          (originsList sd).flatMap originActs := by
      cases ho : sd.origins <;> simp [apply_session_state, originsList, ho]
    intro url items
    rw [h2]
    constructor
    · constructor
      · intro h
        rcases List.mem_cons.mp h with h' | h'
        · cases h'
        · obtain ⟨o, ho, hmem⟩ := List.mem_flatMap.mp h'
          exact ⟨o, ho, (setLocal_mem_originActs o url items).mp hmem⟩
      · rintro ⟨o, ho, hconj⟩
        exact List.mem_cons.mpr (Or.inr
          (List.mem_flatMap.mpr ⟨o, ho, (setLocal_mem_originActs o url items).mpr hconj⟩))
    · constructor
      · intro h
        rcases List.mem_cons.mp h with h' | h'
        · cases h'
        · obtain ⟨o, ho, hmem⟩ := List.mem_flatMap.mp h'
          exact ⟨o, ho, (setSession_mem_originActs o url items).mp hmem⟩
      · rintro ⟨o, ho, hconj⟩
        exact List.mem_cons.mpr (Or.inr
          (List.mem_flatMap.mpr ⟨o, ho, (setSession_mem_originActs o url items).mpr hconj⟩))

/-- Concrete cookie used in the witness for `apply_session_state_spec`. -/
def sessCookie : List (String × JVal) :=
  [("name", .str "sid"), ("value", .str "abc"),
   ("sameSite", .str "lax"), ("storeId", .str "0")]

/-- Concrete session data used in the witness for
`apply_session_state_spec`: one cookie and two origins, of which only the
first contains "sora". -/
def sessWitness : SessionData :=
  { cookies := [sessCookie],
    origins := some
      [{ origin := some "https://sora.com",
         localStorage := some [{ nameV := some (.str "k"), valueV := some (.str "v") }],
         sessionStorage := none },
       { origin := some "https://example.com",
         localStorage := some [{ nameV := some (.str "x"), valueV := some (.str "y") }],
         sessionStorage := none }] }

/-- Witness for `apply_session_state_spec`: a missing file yields `False`;
the cookie's `lax` is normalised to `Lax`; the sora origin's localStorage
is applied while the non-sora origin's is not. -/
theorem apply_session_state_spec_witness :
    apply_session_state .missing true = (false, []) ∧
    (process_cookie sessCookie).lookup "sameSite" = some (.str "Lax") ∧
    CtxAction.setLocalStorage "https://sora.com"
        [(some (.str "k"), some (.str "v"))] ∈
      (apply_session_state (.parsed sessWitness) true).2 ∧
    CtxAction.setLocalStorage "https://example.com"
        [(some (.str "x"), some (.str "y"))] ∉
      (apply_session_state (.parsed sessWitness) true).2 := by
  have h := apply_session_state_spec sessWitness
  refine ⟨h.1 true, ?_, ?_, ?_⟩
  · exact (h.2.2.2.2.1 sessCookie (by simp [sessWitness])).2.1 rfl
  · exact (h.2.2.2.2.2 "https://sora.com"
      [(some (.str "k"), some (.str "v"))]).1.mpr
      ⟨{ origin := some "https://sora.com",
         localStorage := some [{ nameV := some (.str "k"), valueV := some (.str "v") }],
         sessionStorage := none },
       by simp [sessWitness, originsList], rfl, by decide,
       [{ nameV := some (.str "k"), valueV := some (.str "v") }], rfl, rfl⟩
  · intro hmem
    obtain ⟨o, ho, hurl, hsora, -⟩ :=
      (h.2.2.2.2.2 "https://example.com"
        [(some (.str "x"), some (.str "y"))]).1.mp hmem
    exact absurd hsora (by decide)

/-! ## Prompt reading (`generate_image_from_prompt.read_prompt` and `main`)

The prompt file is modelled as `Option String`: `none` when
`os.path.exists` fails, otherwise the file's contents. -/

/-- The characters stripped by Python's `str.strip()` — the code points
with `Py_UNICODE_ISSPACE`: U+0009–U+000D, U+001C–U+0020, U+0085, U+00A0,
U+1680, U+2000–U+200A, U+2028, U+2029, U+202F, U+205F and U+3000. -/
def pyWhitespace (c : Char) : Bool :=
  let n := c.toNat
  (9 ≤ n && n ≤ 13) || (28 ≤ n && n ≤ 32) || n = 133 || n = 160 ||
    n = 5760 || (8192 ≤ n && n ≤ 8202) || n = 8232 || n = 8233 ||
    n = 8239 || n = 8287 || n = 12288

/-- `str.strip()` on the character list: drop whitespace from both ends. -/
def pyStripL (l : List Char) : List Char :=
  ((l.dropWhile pyWhitespace).reverse.dropWhile pyWhitespace).reverse

/-- `str.strip()`. -/
def pyStrip (s : String) : String := ⟨pyStripL s.data⟩

/-- `read_prompt(prompt_file)` (`generate_image_from_prompt.py` lines
29–56): `None` when the file is missing; otherwise the stripped contents,
or `None` when the stripped text is empty. -/
def read_prompt (file : Option String) : Option String :=
  match file with
  | none => none
  | some contents =>
    let prompt := pyStrip contents
    if prompt = "" then none else some prompt

/-- Outcome of the prompt check at the start of `main`
(`generate_image_from_prompt.py` lines 95–104). -/
inductive PromptOutcome where
  | exitFailure (code : Nat) (status : String) (error : String)
  | proceed (prompt : String)
deriving DecidableEq, Repr

/-- The `prompt = read_prompt(); if not prompt: …` gate of `main`: a falsy
prompt (Python `None` or the empty string) logs a FAILURE session result
and exits with status 1; otherwise `main` proceeds with the prompt. -/
def mainPromptGate (file : Option String) : PromptOutcome :=
  match read_prompt file with
  | none => .exitFailure 1 "FAILURE" "Missing or empty prompt.txt file"
  | some p =>
    if p = "" then .exitFailure 1 "FAILURE" "Missing or empty prompt.txt file"
    else .proceed p

theorem pyStripL_eq_nil_of_all_ws (l : List Char)
    (h : ∀ c ∈ l, pyWhitespace c = true) : pyStripL l = [] := by
  unfold pyStripL
  rw [List.dropWhile_eq_nil_iff.mpr h]
  rfl

theorem pyStripL_ne_nil_of_not_all_ws (l : List Char)
    (h : ¬ ∀ c ∈ l, pyWhitespace c = true) : pyStripL l ≠ [] := by
  intro hnil
  apply h
  unfold pyStripL at hnil
  have h1 : (l.dropWhile pyWhitespace).reverse.dropWhile pyWhitespace = [] := by
    have := congrArg List.reverse hnil
    simpa using this
  have h2 : ∀ c ∈ (l.dropWhile pyWhitespace).reverse, pyWhitespace c = true :=
    List.dropWhile_eq_nil_iff.mp h1
  have h3 : ∀ c ∈ l.dropWhile pyWhitespace, pyWhitespace c = true := by
    intro c hc
    exact h2 c (List.mem_reverse.mpr hc)
  intro c hc
  rw [← List.takeWhile_append_dropWhile (p := pyWhitespace) (l := l)] at hc
  rcases List.mem_append.mp hc with h' | h'
  · exact List.mem_takeWhile_imp h'
  · exact h3 c h'

/-- C10: `read_prompt` returns `None` when the file is missing and also
when its contents are entirely whitespace (the text is stripped before
the emptiness check); otherwise it returns the stripped text.  In `main`,
a `None` prompt produces the FAILURE session log and exit status 1. -/
theorem read_prompt_spec :
    read_prompt none = none ∧
    (∀ s : String, (∀ c ∈ s.data, pyWhitespace c = true) →
      read_prompt (some s) = none) ∧
    (∀ s : String, ¬(∀ c ∈ s.data, pyWhitespace c = true) →
      read_prompt (some s) = some (pyStrip s) ∧ pyStrip s ≠ "") ∧
    (∀ file, read_prompt file = none →
      mainPromptGate file =
        .exitFailure 1 "FAILURE" "Missing or empty prompt.txt file") := by
  refine ⟨rfl, ?_, ?_, ?_⟩
  · intro s hs
    have : pyStrip s = "" := congrArg String.mk (pyStripL_eq_nil_of_all_ws s.data hs)
    show (if pyStrip s = "" then (none : Option String) else some (pyStrip s)) = none
    rw [if_pos this]
  · intro s hs
    have hne : pyStrip s ≠ "" := by
      intro he
      exact pyStripL_ne_nil_of_not_all_ws s.data hs (congrArg String.data he)
    refine ⟨?_, hne⟩
    show (if pyStrip s = "" then (none : Option String) else some (pyStrip s)) =
      some (pyStrip s)
    rw [if_neg hne]
  · intro file hf
    unfold mainPromptGate
    rw [hf]

/-- Witness for `read_prompt_spec`: a whitespace-only file yields `None`
and the FAILURE exit — also for non-ASCII whitespace such as a lone
no-break space U+00A0, which `str.strip()` removes; a real prompt is
returned stripped. -/
theorem read_prompt_spec_witness :
    read_prompt (some "  \n\t ") = none ∧
    read_prompt (some "\u00A0") = none ∧
    read_prompt (some "  a cat \n") = some (pyStrip "  a cat \n") ∧
    pyStrip "  a cat \n" = "a cat" ∧
    mainPromptGate (some " \n\u001C ") =
      .exitFailure 1 "FAILURE" "Missing or empty prompt.txt file" := by
  refine ⟨read_prompt_spec.2.1 "  \n\t " (by decide),
    read_prompt_spec.2.1 "\u00A0" (by decide),
    (read_prompt_spec.2.2.1 "  a cat \n" (by decide)).1, by decide,
    read_prompt_spec.2.2.2 (some " \n\u001C ")
      (read_prompt_spec.2.1 " \n\u001C " (by decide))⟩

end Sora
